import Mathlib

/-!
Verification of the claude-workspace clone-pool allocator and
workspace-lifecycle state machine, shallowly embedded from the Go source
(`internal/config`, `internal/workspace`, `cmd/stop.go`, `cmd/create.go`,
`cmd/archive.go`).  Go maps are modelled as association lists, in-place
pointer mutation as functional update, and `error` returns as `Except`
with an inductive error type mirroring the distinct `fmt.Errorf` sites.
External effects (the tmux multiplexer, the filesystem, `encoding/json`,
process liveness) appear as explicit parameters.
-/

deriving instance DecidableEq for Except

/-- Association-list lookup keyed by `String`, modelling a Go map read. -/
def alookup {α : Type} : List (String × α) → String → Option α
  | [], _ => none
  | (k, v) :: t, key => if k = key then some v else alookup t key

/-- Functional update of every entry with the given key, modelling an
in-place mutation through a pointer obtained from a Go map. -/
def aupdate {α : Type} : List (String × α) → String → (α → α) → List (String × α)
  | [], _, _ => []
  | (k, v) :: t, key, f =>
      if k = key then (k, f v) :: aupdate t key f
      else (k, v) :: aupdate t key f

theorem alookup_aupdate {α : Type} (l : List (String × α)) (k : String) (f : α → α)
    (q : String) :
    alookup (aupdate l k f) q =
      if k = q then (alookup l q).map f else alookup l q := by
  induction l with
  | nil => simp [alookup, aupdate]
  | cons p t ih =>
    obtain ⟨k', v⟩ := p
    by_cases h1 : k' = k
    · subst h1
      by_cases h2 : k' = q
      · subst h2; simp [alookup, aupdate]
      · simp [alookup, aupdate, h2, ih]
    · by_cases h2 : k' = q
      · subst h2
        have hne : ¬ k = k' := fun h => h1 h.symm
        simp [alookup, aupdate, h1, hne]
      · simp [alookup, aupdate, h1, h2, ih]

/-- Whether `pre` is a leading segment of `s` (helper for `containsSub`). -/
def startsWithChars : List Char → List Char → Bool
  | [], _ => true
  | _ :: _, [] => false
  | a :: as, b :: bs => a == b && startsWithChars as bs

/-- Go `strings.Contains`: does `hay` contain `needle` as a contiguous run? -/
def containsSub : List Char → List Char → Bool
  | needle, [] => needle.isEmpty
  | needle, c :: t => startsWithChars needle (c :: t) || containsSub needle t

/-- The whitespace characters trimmed/skipped by the Go scanners used here. -/
def isSpaceChar (c : Char) : Bool :=
  c == ' ' || c == '\t' || c == '\n' || c == '\r'

/-- Go `strings.TrimSpace` on the character list of a string. -/
def trimSpaceChars (cs : List Char) : List Char :=
  ((cs.dropWhile isSpaceChar).reverse.dropWhile isSpaceChar).reverse

/-- Accumulate a leading decimal-digit run; `seen` records whether at least
one digit has been consumed (Go scanners require one). -/
def digitRunAux : List Char → Nat → Bool → Option Nat
  | [], acc, seen => if seen then some acc else none
  | c :: t, acc, seen =>
      if '0' ≤ c && c ≤ '9' then
        digitRunAux t (acc * 10 + (c.toNat - '0'.toNat)) true
      else if seen then some acc else none

/-- Go `fmt.Sscanf(s, "%d", &n)`: skip leading whitespace, optional sign,
then a maximal digit run (at least one digit); trailing text is ignored. -/
def sscanfD (cs : List Char) : Option Int :=
  let cs := cs.dropWhile isSpaceChar
  match cs with
  | '-' :: rest => (digitRunAux rest 0 false).map (fun n => -(n : Int))
  | '+' :: rest => (digitRunAux rest 0 false).map (fun n => (n : Int))
  | _ => (digitRunAux cs 0 false).map (fun n => (n : Int))

/-- All-digits parse used by `atoi`: fails on any non-digit character. -/
def atoiAll : List Char → Nat → Option Nat
  | [], acc => some acc
  | c :: t, acc =>
      if '0' ≤ c && c ≤ '9' then atoiAll t (acc * 10 + (c.toNat - '0'.toNat))
      else none

/-- Digits of `atoi` after the optional sign: nonempty and all digits. -/
def atoiNat : List Char → Option Nat
  | [] => none
  | c :: t => atoiAll (c :: t) 0

/-- Go `strconv.Atoi`: optional sign then digits, the whole string. -/
def atoi (cs : List Char) : Option Int :=
  match cs with
  | '-' :: rest => (atoiNat rest).map (fun n => -(n : Int))
  | '+' :: rest => (atoiNat rest).map (fun n => (n : Int))
  | _ => (atoiNat cs).map (fun n => (n : Int))

/-! ### Go `path/filepath` (unix rules), as used by `workspace.Manager.GetPath`
and `config.GetNextCloneNumber`. -/

/-- Split a character list on `'/'` (empty segments kept). -/
def splitSlash : List Char → List (List Char)
  | [] => [[]]
  | c :: rest =>
      if c = '/' then [] :: splitSlash rest
      else
        match splitSlash rest with
        | h :: t => (c :: h) :: t
        | [] => [[c]]

/-- Join segments with `'/'`. -/
def joinSlash : List (List Char) → List Char
  | [] => []
  | [s] => s
  | s :: rest => s ++ '/' :: joinSlash rest

/-- One step of Go `filepath.Clean`'s element processing: `stack` holds the
output segments in reverse. -/
def cleanStep (rooted : Bool) (stack : List (List Char)) (e : List Char) :
    List (List Char) :=
  if e = [] ∨ e = ['.'] then stack
  else if e = ['.', '.'] then
    match stack with
    | [] => if rooted then [] else [['.', '.']]
    | top :: rest => if top = ['.', '.'] then e :: top :: rest else rest
  else e :: stack

/-- Go `filepath.Clean` for unix paths: purely lexical processing that
resolves `.` and `..` segments and collapses repeated separators. -/
def goClean (s : String) : String :=
  if s = "" then "."
  else
    let cs := s.data
    let rooted := cs.head? = some '/'
    let stack := (splitSlash cs).foldl (cleanStep rooted) []
    let body := joinSlash stack.reverse
    if rooted then String.mk ('/' :: body)
    else if body = [] then "." else String.mk body

/-- Go `filepath.Join` on two elements: empty elements are skipped, the
rest are joined with `'/'` and the result is passed through `Clean`. -/
def goJoin2 (a b : String) : String :=
  if a = "" then (if b = "" then "" else goClean b)
  else goClean (a ++ "/" ++ b)

/-- Strip trailing `'/'` characters (helper for `goBase`). -/
def dropTrailingSlashes (cs : List Char) : List Char :=
  (cs.reverse.dropWhile (fun c => c = '/')).reverse

/-- Keep only the characters after the last `'/'` (helper for `goBase`). -/
def afterLastSlash (cs : List Char) : List Char :=
  cs.foldl (fun acc c => if c = '/' then [] else acc ++ [c]) []

/-- Go `filepath.Base`: the last element of the path after removing
trailing separators; `""` gives `"."` and an all-separator path gives `"/"`. -/
def goBase (path : String) : String :=
  if path = "" then "."
  else
    let cs := afterLastSlash (dropTrailingSlashes path.data)
    if cs = [] then "/" else String.mk cs

/-! ### `config.ValidateWorkspaceName` (internal/config/config.go). -/

/-- The distinct rejection cases of `ValidateWorkspaceName`, one per
`fmt.Errorf` site in the Go source. -/
inductive NameError where
  | emptyName
  | hasSpace (name : String)
  | hasPathSep (name : String)
  | invalidChar (c : String) (name : String)
  | hasDotDot (name : String)
deriving DecidableEq

/-- The literal character list the Go validator loops over. -/
def invalidChars : List String :=
  [":", "*", "?", "\"", "<", ">", "|", "\t", "\n"]

/-- `config.ValidateWorkspaceName`: empty, space, `/` or `\`, the
`invalidChars` list, then `..` are checked in that order. -/
def validateWorkspaceName (name : String) : Except NameError Unit :=
  if name = "" then .error .emptyName
  else if containsSub " ".data name.data then .error (.hasSpace name)
  else if containsSub "/".data name.data || containsSub "\\".data name.data then
    .error (.hasPathSep name)
  else
    match invalidChars.find? (fun c => containsSub c.data name.data) with
    | some c => .error (.invalidChar c name)
    | none =>
        if containsSub "..".data name.data then .error (.hasDotDot name)
        else .ok ()

/-- A modest standard set of shell metacharacters, written down from the
claim's words (not from the source) to state what "rejects every name
containing a shell metacharacter" would require. -/
def shellMetaChars : List Char :=
  [';', '&', '|', '$', '`', '(', ')', '<', '>', '*', '?', '[', ']', '#', '~', '"', '\'', '\\', ' ']

/-! ### Data model (internal/config/config.go). -/

def StatusActive : String := "active"

def StatusIdle : String := "idle"

def StatusArchived : String := "archived"

/-- `config.Remote`. -/
structure Remote where
  name : String
  url : String
  cloneBaseDir : String
deriving DecidableEq

/-- `config.Clone`.  `createdAt` stands in for the Go `time.Time`. -/
structure Clone where
  path : String
  remoteName : String
  createdAt : Nat
  inUseBy : String
  currentBranch : String
deriving DecidableEq

/-- `config.Workspace`. -/
structure Workspace where
  name : String
  repoPath : String
  clonePath : String
  createdAt : Nat
  lastActive : Nat
  status : String
  sessionPID : Int
deriving DecidableEq

/-- `config.Settings`. -/
structure Settings where
  workspaceDir : String
  autoStartClaude : Bool
  requireSessionLock : Bool
  claudeCommand : String
deriving DecidableEq

/-- `config.Config`: the three maps plus settings.  The Go maps are
association lists keyed by name (workspaces, remotes) or path (clones). -/
structure Config where
  workspaces : List (String × Workspace)
  remotes : List (String × Remote)
  clones : List (String × Clone)
  settings : Settings
deriving DecidableEq

/-- The distinct error cases of the config-level operations. -/
inductive CfgError where
  | workspaceNotFound (name : String)
  | workspaceExists (name : String)
  | remoteNotFound (name : String)
  | cloneNotFound (path : String)
  | cloneExists (path : String)
  | alreadyInUse (owner : String)
  | invalidName (e : NameError)
deriving DecidableEq

/-- `Config.GetWorkspace`. -/
def Config.getWorkspace (c : Config) (name : String) : Except CfgError Workspace :=
  match alookup c.workspaces name with
  | some ws => .ok ws
  | none => .error (.workspaceNotFound name)

/-- `Config.GetRemote`. -/
def Config.getRemote (c : Config) (name : String) : Except CfgError Remote :=
  match alookup c.remotes name with
  | some r => .ok r
  | none => .error (.remoteNotFound name)

/-- `Config.GetClone`. -/
def Config.getClone (c : Config) (path : String) : Except CfgError Clone :=
  match alookup c.clones path with
  | some cl => .ok cl
  | none => .error (.cloneNotFound path)

/-- `Config.AddWorkspace`: validates the name, refuses duplicates, inserts
a fresh workspace with status idle. -/
def Config.addWorkspace (c : Config) (name repoPath : String) (now : Nat) :
    Except CfgError Config :=
  match validateWorkspaceName name with
  | .error e => .error (.invalidName e)
  | .ok _ =>
      match alookup c.workspaces name with
      | some _ => .error (.workspaceExists name)
      | none =>
          .ok { c with workspaces := c.workspaces ++
                  [(name, { name := name, repoPath := repoPath, clonePath := "",
                            createdAt := now, lastActive := now,
                            status := StatusIdle, sessionPID := 0 })] }

/-- `Config.UpdateWorkspaceStatus`: sets status, last-active time and pid. -/
def Config.updateWorkspaceStatus (c : Config) (name status : String) (pid : Int)
    (now : Nat) : Except CfgError Config :=
  match alookup c.workspaces name with
  | none => .error (.workspaceNotFound name)
  | some _ =>
      let f := fun (w : Workspace) =>
        { w with status := status, lastActive := now, sessionPID := pid }
      .ok { c with workspaces := aupdate c.workspaces name f }

/-- `Config.FindFreeClone`: any clone of the remote with empty `in_use_by`. -/
def Config.findFreeClone (c : Config) (remoteName : String) : Option Clone :=
  (c.clones.find? (fun pc => pc.2.remoteName == remoteName && pc.2.inUseBy == "")).map
    (fun pc => pc.2)

/-- The inner check of `FindIdleClones`: `GetWorkspace(owner)` succeeds and
the workspace's status is idle. -/
def ownerIdle (c : Config) (owner : String) : Bool :=
  match alookup c.workspaces owner with
  | some ws => ws.status == StatusIdle
  | none => false

theorem ownerIdle_iff (c : Config) (owner : String) :
    ownerIdle c owner = true ↔
      ∃ ws, alookup c.workspaces owner = some ws ∧ ws.status = StatusIdle := by
  cases h : alookup c.workspaces owner <;> simp [ownerIdle, h]

/-- `Config.FindIdleClones`: clones of the remote whose `in_use_by` names an
existing workspace with status idle. -/
def Config.findIdleClones (c : Config) (remoteName : String) : List Clone :=
  (c.clones.filter (fun pc =>
      pc.2.remoteName == remoteName && pc.2.inUseBy != "" &&
        ownerIdle c pc.2.inUseBy)).map (fun pc => pc.2)

/-- `Config.AssignCloneToWorkspace`: refuses when the clone is held by a
different workspace, otherwise records the new holder. -/
def Config.assignCloneToWorkspace (c : Config) (clonePath workspaceName : String) :
    Except CfgError Config :=
  match alookup c.clones clonePath with
  | none => .error (.cloneNotFound clonePath)
  | some clone =>
      if clone.inUseBy != "" && clone.inUseBy != workspaceName then
        .error (.alreadyInUse clone.inUseBy)
      else
        let f := fun (cl : Clone) => { cl with inUseBy := workspaceName }
        .ok { c with clones := aupdate c.clones clonePath f }

/-- `Config.FreeClone`: clears `in_use_by`; fails only on unknown paths. -/
def Config.freeClone (c : Config) (clonePath : String) : Except CfgError Config :=
  match alookup c.clones clonePath with
  | none => .error (.cloneNotFound clonePath)
  | some _ =>
      let f := fun (cl : Clone) => { cl with inUseBy := "" }
      .ok { c with clones := aupdate c.clones clonePath f }

/-- The loop body of `Config.GetNextCloneNumber`: keep the largest ordinal
parsed (via `Sscanf "%d"`) from the base name of a matching clone's path. -/
def cloneStep (remoteName : String) (acc : Int) (pc : String × Clone) : Int :=
  if pc.2.remoteName == remoteName then
    match sscanfD (goBase pc.2.path).data with
    | some n => if n > acc then n else acc
    | none => acc
  else acc

/-- `Config.GetNextCloneNumber`: one plus the largest parsed ordinal
(starting from 0) over the remote's clones. -/
def Config.getNextCloneNumber (c : Config) (remoteName : String) : Int :=
  c.clones.foldl (cloneStep remoteName) 0 + 1

/-- The ordinals of a remote's clones, written down from the spec's words
for `NextCloneOrdinal` (final path segment parsed as an integer;
non-numeric segments ignored). -/
def remoteOrdinals (remoteName : String) (clones : List (String × Clone)) :
    List Int :=
  clones.filterMap (fun pc =>
    if pc.2.remoteName == remoteName then sscanfD (goBase pc.2.path).data
    else none)

/-- `NextCloneOrdinal` as the spec words it: `max(existing) + 1`, with 0 as
the floor for an empty pool. -/
def specNextCloneOrdinal (c : Config) (remoteName : String) : Int :=
  (remoteOrdinals remoteName c.clones).foldl max 0 + 1

/-! ### Config Store `Load` (internal/config/config.go) and the lock
protocol (internal/workspace/workspace.go).  File reads and `encoding/json`
are external: a read yields `ReadRes`, and unmarshalling is a parameter. -/

/-- Result of `os.ReadFile`. -/
inductive ReadRes where
  | notExist
  | fileData (data : String)
  | readErr (msg : String)
deriving DecidableEq

/-- What `json.Unmarshal` produces for a `Config` document: maps absent
from the JSON come back as `none` (Go `nil`). -/
structure RawConfig where
  workspaces : Option (List (String × Workspace))
  remotes : Option (List (String × Remote))
  clones : Option (List (String × Clone))
  settings : Settings
deriving DecidableEq

/-- The error cases of `config.Load`. -/
inductive LoadError where
  | readFailed (msg : String)
  | parseFailed (msg : String)
deriving DecidableEq

/-- `config.NewDefaultConfig` (with the home directory as a parameter). -/
def newDefaultConfig (home : String) : Config :=
  { workspaces := [], remotes := [], clones := [],
    settings := { workspaceDir := home ++ "/.claude-workspaces",
                  autoStartClaude := true, requireSessionLock := true,
                  claudeCommand := "claude" } }

/-- `config.Load`: absent file gives the default config; a read error or
an unmarshal error is surfaced; on success nil maps become empty maps. -/
def loadConfig (home : String) (file : ReadRes)
    (unmarshal : String → Except String RawConfig) : Except LoadError Config :=
  match file with
  | .notExist => .ok (newDefaultConfig home)
  | .readErr e => .error (.readFailed e)
  | .fileData data =>
      match unmarshal data with
      | .error e => .error (.parseFailed e)
      | .ok raw =>
          .ok { workspaces := raw.workspaces.getD [],
                remotes := raw.remotes.getD [],
                clones := raw.clones.getD [],
                settings := raw.settings }

/-- `workspace.Manager`: the base directory under which per-workspace
directories live. -/
structure WsManager where
  baseDir : String
deriving DecidableEq

/-- `workspace.Manager.GetPath`: `filepath.Join(baseDir, name)`. -/
def WsManager.getPath (m : WsManager) (name : String) : String :=
  goJoin2 m.baseDir name

/-- `workspace.Manager.CheckLock`: absent lock is `(false, 0)`; a payload
that `Atoi` rejects is a fatal error; otherwise the pid is probed for
liveness (`probe` abstracts the signal-0 existence check). -/
def checkLock (lockFile : ReadRes) (probe : Int → Bool) :
    Except String (Bool × Int) :=
  match lockFile with
  | .notExist => .ok (false, 0)
  | .readErr e => .error e
  | .fileData data =>
      match atoi (trimSpaceChars data.data) with
      | none => .error "invalid lock file"
      | some pid => if probe pid then .ok (true, pid) else .ok (false, pid)

/-! ### Lifecycle commands (cmd/stop.go, cmd/archive.go, cmd/create.go).
tmux is modelled by the list of live session names; kills always succeed;
the directory moves of archiving are a parameter. -/

/-- Errors surfaced by the modelled commands. -/
inductive CmdError where
  | cfg (e : CfgError)
  | cannotArchiveActive (name : String)
  | archiveDirFailed (msg : String)
  | noFreeClone (remoteName : String)
deriving DecidableEq

/-- `session.Manager.GetSessionName`. -/
def sessionNameFor (workspaceName : String) : String :=
  "claude-ws-" ++ workspaceName

/-- `cmd/stop.go`: kill the tmux session if present, free the clone if the
workspace references a registered one, set status idle, save.  Returns the
saved config and the surviving session list. -/
def stopCmd (cfg : Config) (sessions : List String) (name : String) (now : Nat) :
    Except CmdError (Config × List String) :=
  match cfg.getWorkspace name with
  | .error e => .error (.cfg e)
  | .ok ws =>
      let sn := sessionNameFor name
      let sessions1 := if sessions.contains sn then sessions.erase sn else sessions
      let freeStep : Except CmdError Config :=
        if ws.clonePath != "" then
          match alookup cfg.clones ws.clonePath with
          | some _ =>
              match cfg.freeClone ws.clonePath with
              | .ok c => .ok c
              | .error e => .error (.cfg e)
          | none => .ok cfg
        else .ok cfg
      match freeStep with
      | .error e => .error e
      | .ok cfg1 =>
          match cfg1.updateWorkspaceStatus name StatusIdle 0 now with
          | .ok cfg2 => .ok (cfg2, sessions1)
          | .error e => .error (.cfg e)

/-- `cmd/archive.go`: refuse when the workspace is active; otherwise move
the directory (`fsArchive` is that external move), free the clone with a
warning on failure, set status archived, save. -/
def archiveCmd (cfg : Config) (name : String) (fsArchive : Except String Unit)
    (now : Nat) : Except CmdError Config :=
  match cfg.getWorkspace name with
  | .error e => .error (.cfg e)
  | .ok ws =>
      if ws.status == StatusActive then .error (.cannotArchiveActive name)
      else
        match fsArchive with
        | .error e => .error (.archiveDirFailed e)
        | .ok _ =>
            let cfg1 :=
              if ws.clonePath != "" then
                match cfg.freeClone ws.clonePath with
                | .ok c => c
                | .error _ => cfg
              else cfg
            match cfg1.updateWorkspaceStatus name StatusArchived 0 now with
            | .ok cfg2 => .ok cfg2
            | .error e => .error (.cfg e)

/-- `cmd/create.go` in remote mode when a free clone exists and the user
picks it (option 1): register the workspace, set its `clone_path`, assign
the clone, save. -/
def createWithFreeClone (cfg : Config) (name remoteName : String) (now : Nat) :
    Except CmdError Config :=
  match cfg.getRemote remoteName with
  | .error e => .error (.cfg e)
  | .ok _ =>
      match cfg.findFreeClone remoteName with
      | none => .error (.noFreeClone remoteName)
      | some freeClone =>
          match cfg.addWorkspace name freeClone.path now with
          | .error e => .error (.cfg e)
          | .ok cfg1 =>
              let f := fun (w : Workspace) => { w with clonePath := freeClone.path }
              let cfg2 := { cfg1 with workspaces := aupdate cfg1.workspaces name f }
              match cfg2.assignCloneToWorkspace freeClone.path name with
              | .error e => .error (.cfg e)
              | .ok cfg3 => .ok cfg3

/-- The state the single JSON document holds after a command: the saved
config on success, the untouched original on error. -/
def runPersisted (cfg : Config) (r : Except CmdError Config) : Config :=
  match r with
  | .ok c => c
  | .error _ => cfg

/-! ### Claims. -/

/-- Record `wsName` as a clone's holder (the mutation both
`AssignCloneToWorkspace` and `FreeClone` perform on the looked-up clone). -/
def setHolder (wsName : String) (cl : Clone) : Clone :=
  { cl with inUseBy := wsName }

/-- C4: the claim (and the repository's own test
`TestManager_GetPath_RelativeName`) says `GetPath` places the final
component directly under the base directory, e.g.
`GetPath("../escape") = "/tmp/workspaces/escape"`.  The code computes
`filepath.Join(baseDir, name)`, which lexically resolves `..` and so
*escapes* the base directory: the result is `/tmp/escape`, and
`../../etc/passwd` reaches `/etc/passwd`. -/
theorem getPath_traversal_escapes :
    (WsManager.mk "/tmp/workspaces").getPath "../escape" = "/tmp/escape" ∧
    (WsManager.mk "/tmp/workspaces").getPath "../escape" ≠ "/tmp/workspaces/escape" ∧
    (WsManager.mk "/tmp/workspaces").getPath "../../etc/passwd" = "/etc/passwd" ∧
    (WsManager.mk "/tmp/workspaces").getPath "/etc/passwd" = "/tmp/workspaces/etc/passwd" := by
  decide

/-- C2: `AssignCloneToWorkspace` fails with the already-in-use error
exactly when the clone is registered and held by a different workspace
(re-assigning to the same holder, or assigning a free clone, succeeds and
records the holder); on any error no mutated config is produced, so the
persisted `in_use_by` is unchanged.  `FreeClone` clears `in_use_by` for
every registered clone unconditionally and fails only on unknown paths. -/
theorem assign_free_clone_spec (c : Config) (path wsName : String) :
    (alookup c.clones path = none →
      c.assignCloneToWorkspace path wsName = .error (.cloneNotFound path) ∧
      c.freeClone path = .error (.cloneNotFound path)) ∧
    (∀ cl, alookup c.clones path = some cl →
      ((cl.inUseBy ≠ "" ∧ cl.inUseBy ≠ wsName) →
        c.assignCloneToWorkspace path wsName = .error (.alreadyInUse cl.inUseBy)) ∧
      ((cl.inUseBy = "" ∨ cl.inUseBy = wsName) →
        c.assignCloneToWorkspace path wsName =
          .ok { c with clones := aupdate c.clones path (setHolder wsName) }) ∧
      c.freeClone path =
        .ok { c with clones := aupdate c.clones path (setHolder "") }) := by
  constructor
  · intro h
    constructor <;> simp [Config.assignCloneToWorkspace, Config.freeClone, h]
  · intro cl hcl
    refine ⟨?_, ?_, ?_⟩
    · intro ⟨h1, h2⟩
      simp [Config.assignCloneToWorkspace, hcl, h1, h2]
    · intro h
      rcases h with h | h <;> simp [Config.assignCloneToWorkspace, setHolder, hcl, h] <;> rfl
    · simp [Config.freeClone, setHolder, hcl]
      rfl

/-- Default settings reused by the concrete example configurations. -/
def settingsEx : Settings :=
  { workspaceDir := "/ws", autoStartClaude := true, requireSessionLock := true,
    claudeCommand := "claude" }

/-- A pool with one clone held by workspace `A` (for the C2 witness). -/
def cfgC2 : Config :=
  { workspaces := [], remotes := [],
    clones := [("/c/1", { path := "/c/1", remoteName := "r", createdAt := 0,
                          inUseBy := "A", currentBranch := "main" })],
    settings := settingsEx }

/-- Witness for C2: with `/c/1` held by `A`, assigning it to `B` fails with
the already-in-use error, while freeing it succeeds. -/
theorem assign_free_clone_spec_witness :
    cfgC2.assignCloneToWorkspace "/c/1" "B" = .error (.alreadyInUse "A") ∧
    cfgC2.freeClone "/c/1" =
      .ok { cfgC2 with clones := aupdate cfgC2.clones "/c/1" (setHolder "") } :=
  ⟨((assign_free_clone_spec cfgC2 "/c/1" "B").2
      { path := "/c/1", remoteName := "r", createdAt := 0, inUseBy := "A",
        currentBranch := "main" } (by decide)).1 (by decide),
   ((assign_free_clone_spec cfgC2 "/c/1" "B").2
      { path := "/c/1", remoteName := "r", createdAt := 0, inUseBy := "A",
        currentBranch := "main" } (by decide)).2.2⟩

/-- C7: `Load` yields the freshly-initialized default config (and no
error) when the file is absent; surfaces an error — never a default
config — for every unmarshal failure; and on success replaces nil maps by
empty maps.  `encoding/json` is abstracted as the parameter `um`. -/
theorem load_config_spec (home : String) (um : String → Except String RawConfig) :
    loadConfig home .notExist um = .ok (newDefaultConfig home) ∧
    (∀ data e, um data = .error e →
      loadConfig home (.fileData data) um = .error (.parseFailed e)) ∧
    (∀ data raw, um data = .ok raw →
      loadConfig home (.fileData data) um =
        .ok { workspaces := raw.workspaces.getD [],
              remotes := raw.remotes.getD [],
              clones := raw.clones.getD [],
              settings := raw.settings }) := by
  refine ⟨rfl, ?_, ?_⟩ <;> intro data x h <;> simp [loadConfig, h]

/-- A concrete unmarshaller exercising both outcomes of `loadConfig`. -/
def umEx : String → Except String RawConfig :=
  fun s => if s = "bad" then .error "bad json"
           else .ok { workspaces := none, remotes := none, clones := none,
                      settings := settingsEx }

/-- Witness for C7 at concrete inputs: absent file, corrupt file, and a
parse with nil maps. -/
theorem load_config_spec_witness :
    loadConfig "/h" .notExist umEx = .ok (newDefaultConfig "/h") ∧
    loadConfig "/h" (.fileData "bad") umEx = .error (.parseFailed "bad json") ∧
    loadConfig "/h" (.fileData "x") umEx =
      .ok { workspaces := [], remotes := [], clones := [], settings := settingsEx } :=
  ⟨(load_config_spec "/h" umEx).1,
   (load_config_spec "/h" umEx).2.1 "bad" "bad json" (by decide),
   (load_config_spec "/h" umEx).2.2 "x"
     { workspaces := none, remotes := none, clones := none, settings := settingsEx }
     (by decide)⟩

/-- C8: `CheckLock` returns `(false, 0)` and no error for an absent lock
file; rejects a payload `Atoi` cannot parse; and for a valid pid returns
`held = probe(pid)` with that pid and no error, where `probe` abstracts
the signal-0 process-existence check. -/
theorem check_lock_spec (probe : Int → Bool) :
    checkLock .notExist probe = .ok (false, 0) ∧
    (∀ data, atoi (trimSpaceChars data.data) = none →
      checkLock (.fileData data) probe = .error "invalid lock file") ∧
    (∀ data pid, atoi (trimSpaceChars data.data) = some pid →
      (probe pid = true → checkLock (.fileData data) probe = .ok (true, pid)) ∧
      (probe pid = false → checkLock (.fileData data) probe = .ok (false, pid))) := by
  refine ⟨rfl, ?_, ?_⟩
  · intro data h
    simp [checkLock, h]
  · intro data pid h
    constructor <;> intro hp <;> simp [checkLock, h, hp]

/-- An existence probe under which pid 12345 is live and pid 999999 is not
(standing in for "own pid" versus "certainly-nonexistent pid"). -/
def probeEx : Int → Bool := fun pid => pid < 100000

/-- Witness for C8: absent lock, garbled lock, live pid, dead pid. -/
theorem check_lock_spec_witness :
    checkLock .notExist probeEx = .ok (false, 0) ∧
    checkLock (.fileData "not-a-number") probeEx = .error "invalid lock file" ∧
    checkLock (.fileData "12345") probeEx = .ok (true, 12345) ∧
    checkLock (.fileData " 999999\n") probeEx = .ok (false, 999999) :=
  ⟨(check_lock_spec probeEx).1,
   (check_lock_spec probeEx).2.1 "not-a-number" (by decide),
   ((check_lock_spec probeEx).2.2 "12345" 12345 (by decide)).1 (by decide),
   ((check_lock_spec probeEx).2.2 " 999999\n" 999999 (by decide)).2 (by decide)⟩

/-- The C6 example pool for remote `r`: workspace `A` is active and owns
`/c/1`; `B` is idle and owns `/c/2`; `/c/3` names a missing owner; `/c/4`
is free; `C` is archived and owns `/c/5`. -/
def cfgC6 : Config :=
  { workspaces :=
      [("A", { name := "A", repoPath := "/c/1", clonePath := "/c/1", createdAt := 0,
               lastActive := 0, status := StatusActive, sessionPID := 7 }),
       ("B", { name := "B", repoPath := "/c/2", clonePath := "/c/2", createdAt := 0,
               lastActive := 0, status := StatusIdle, sessionPID := 0 }),
       ("C", { name := "C", repoPath := "/c/5", clonePath := "/c/5", createdAt := 0,
               lastActive := 0, status := StatusArchived, sessionPID := 0 })],
    remotes := [("r", { name := "r", url := "git@h:r.git", cloneBaseDir := "/c" })],
    clones :=
      [("/c/1", { path := "/c/1", remoteName := "r", createdAt := 0, inUseBy := "A",
                  currentBranch := "main" }),
       ("/c/2", { path := "/c/2", remoteName := "r", createdAt := 0, inUseBy := "B",
                  currentBranch := "main" }),
       ("/c/3", { path := "/c/3", remoteName := "r", createdAt := 0, inUseBy := "ghost",
                  currentBranch := "main" }),
       ("/c/4", { path := "/c/4", remoteName := "r", createdAt := 0, inUseBy := "",
                  currentBranch := "main" }),
       ("/c/5", { path := "/c/5", remoteName := "r", createdAt := 0, inUseBy := "C",
                  currentBranch := "main" })],
    settings := settingsEx }

/-- C6: a clone is returned by `FindIdleClones(remote)` exactly when it is
a registered clone of that remote, is held by some workspace, and that
workspace exists with status idle — so clones whose owner is active,
archived or missing, and free clones, are never returned.  On the example
pool only `B`'s clone `/c/2` is returned. -/
theorem find_idle_clones_spec :
    (∀ (c : Config) (remoteName : String) (cl : Clone),
      cl ∈ c.findIdleClones remoteName ↔
        (∃ p, (p, cl) ∈ c.clones) ∧ cl.remoteName = remoteName ∧ cl.inUseBy ≠ "" ∧
        ∃ ws, alookup c.workspaces cl.inUseBy = some ws ∧ ws.status = StatusIdle) ∧
    (cfgC6.findIdleClones "r").map Clone.path = ["/c/2"] := by
  constructor
  · intro c remoteName cl
    constructor
    · intro h
      simp only [Config.findIdleClones, List.mem_map, List.mem_filter] at h
      obtain ⟨⟨p, cl'⟩, ⟨hmem, hcond⟩, hrfl⟩ := h
      subst hrfl
      simp only [Bool.and_eq_true, beq_iff_eq, bne_iff_ne] at hcond
      obtain ⟨⟨h1, h2⟩, h3⟩ := hcond
      exact ⟨⟨p, hmem⟩, h1, h2, (ownerIdle_iff c _).mp h3⟩
    · rintro ⟨⟨p, hmem⟩, h1, h2, hws⟩
      simp only [Config.findIdleClones, List.mem_map, List.mem_filter]
      refine ⟨(p, cl), ⟨hmem, ?_⟩, rfl⟩
      simp only [Bool.and_eq_true, beq_iff_eq, bne_iff_ne]
      exact ⟨⟨h1, h2⟩, (ownerIdle_iff c _).mpr hws⟩
  · decide

/-- C3 counterexample: the claim says every name containing a shell
metacharacter (or whitespace) is rejected, but the validator only checks
its fixed character list: `"a;b"` contains the metacharacter `;` and
`"a\rb"` contains the whitespace CR, yet both validate successfully. -/
theorem validate_accepts_shell_metachar :
    validateWorkspaceName "a;b" = .ok () ∧
    ';' ∈ shellMetaChars ∧ containsSub [';'] "a;b".data = true ∧
    validateWorkspaceName "a\rb" = .ok () := by
  decide

/-- C3 amended: the validator rejects the empty string and every name
containing a space, `/`, `\`, one of `: * ? " < > | TAB NL`, or the
substring `..` (in particular all the claim's examples), and accepts
`feature-123_x`; names containing other shell metacharacters (such as
`;`) or other whitespace are not rejected. -/
theorem validate_name_rejection :
    (∀ name : String,
      (name = "" ∨ containsSub " ".data name.data = true ∨
       containsSub "/".data name.data = true ∨
       containsSub "\\".data name.data = true ∨
       (∃ c ∈ invalidChars, containsSub c.data name.data = true) ∨
       containsSub "..".data name.data = true) →
      ∃ e, validateWorkspaceName name = .error e) ∧
    validateWorkspaceName "feature-123_x" = .ok () ∧
    validateWorkspaceName "my workspace" = .error (.hasSpace "my workspace") ∧
    validateWorkspaceName "a/b" = .error (.hasPathSep "a/b") ∧
    validateWorkspaceName "a\\b" = .error (.hasPathSep "a\\b") ∧
    validateWorkspaceName "a:b" = .error (.invalidChar ":" "a:b") ∧
    validateWorkspaceName "../x" = .error (.hasPathSep "../x") ∧
    validateWorkspaceName "a..b" = .error (.hasDotDot "a..b") ∧
    validateWorkspaceName "" = .error .emptyName := by
  refine ⟨?_, by decide, by decide, by decide, by decide, by decide, by decide,
          by decide, by decide⟩
  intro name h
  by_cases h1 : name = ""
  · exact ⟨.emptyName, by simp [validateWorkspaceName, h1]⟩
  by_cases h2 : containsSub " ".data name.data = true
  · exact ⟨.hasSpace name, by simp [validateWorkspaceName, h1, h2]⟩
  by_cases h3 : containsSub "/".data name.data = true
  · exact ⟨.hasPathSep name, by simp [validateWorkspaceName, h1, h2, h3]⟩
  by_cases h4 : containsSub "\\".data name.data = true
  · exact ⟨.hasPathSep name, by simp [validateWorkspaceName, h1, h2, h3, h4]⟩
  by_cases h5 : ∃ c ∈ invalidChars, containsSub c.data name.data = true
  · have hs : (invalidChars.find? (fun c => containsSub c.data name.data)).isSome :=
      List.find?_isSome.mpr h5
    obtain ⟨c0, hc0⟩ := Option.isSome_iff_exists.mp hs
    exact ⟨.invalidChar c0 name,
           by simp [validateWorkspaceName, h1, h2, h3, h4, hc0]⟩
  by_cases h6 : containsSub "..".data name.data = true
  · have hnone : invalidChars.find? (fun c => containsSub c.data name.data) = none :=
      List.find?_eq_none.mpr (by
        intro c hc
        simp only [Bool.not_eq_true]
        by_contra hcc
        exact h5 ⟨c, hc, by simpa using hcc⟩)
    exact ⟨.hasDotDot name,
           by simp [validateWorkspaceName, h1, h2, h3, h4, hnone, h6]⟩
  · exfalso
    rcases h with h | h | h | h | h | h
    · exact h1 h
    · exact h2 h
    · exact h3 h
    · exact h4 h
    · exact h5 h
    · exact h6 h

/-- Witness for the C3 amended theorem at a concrete rejected input. -/
theorem validate_name_rejection_witness :
    ∃ e, validateWorkspaceName "bad/../name" = .error e :=
  validate_name_rejection.1 "bad/../name" (Or.inr (Or.inr (Or.inl (by decide))))

theorem cloneStep_le (r : String) (acc : Int) (pc : String × Clone) :
    acc ≤ cloneStep r acc pc := by
  by_cases hr : (pc.2.remoteName == r) = true
  · cases h : sscanfD (goBase pc.2.path).data with
    | none => simp [cloneStep, hr, h]
    | some n =>
        simp only [cloneStep, hr, if_pos, h]
        split <;> omega
  · simp [cloneStep, hr]

theorem foldl_cloneStep_le (r : String) (l : List (String × Clone)) (acc : Int) :
    acc ≤ l.foldl (cloneStep r) acc := by
  induction l generalizing acc with
  | nil => simp
  | cons pc t ih =>
      calc acc ≤ cloneStep r acc pc := cloneStep_le r acc pc
        _ ≤ (pc :: t).foldl (cloneStep r) acc := by
              rw [List.foldl_cons]; exact ih _

theorem foldl_cloneStep_ge (r : String) (l : List (String × Clone)) (acc : Int)
    (pc : String × Clone) (n : Int) (hmem : pc ∈ l) (hr : pc.2.remoteName = r)
    (hp : sscanfD (goBase pc.2.path).data = some n) :
    n ≤ l.foldl (cloneStep r) acc := by
  induction l generalizing acc with
  | nil => cases hmem
  | cons q t ih =>
      rw [List.foldl_cons]
      rcases List.mem_cons.mp hmem with rfl | hmem'
      · have hstep : n ≤ cloneStep r acc pc := by
          simp only [cloneStep, hr, beq_self_eq_true, if_pos, hp]
          split <;> omega
        exact le_trans hstep (foldl_cloneStep_le r t _)
      · exact ih _ hmem'

theorem foldl_cloneStep_eq (r : String) (l : List (String × Clone)) (acc : Int) :
    l.foldl (cloneStep r) acc = (remoteOrdinals r l).foldl max acc := by
  induction l generalizing acc with
  | nil => simp [remoteOrdinals]
  | cons pc t ih =>
      rw [List.foldl_cons]
      by_cases hr : (pc.2.remoteName == r) = true
      · cases h : sscanfD (goBase pc.2.path).data with
        | none =>
            have h1 : cloneStep r acc pc = acc := by simp [cloneStep, hr, h]
            have h2 : remoteOrdinals r (pc :: t) = remoteOrdinals r t := by
              have hr' : pc.2.remoteName = r := by simpa using hr
              simp [remoteOrdinals, List.filterMap_cons, hr', h]
            rw [h1, h2]
            exact ih acc
        | some n =>
            have h1 : cloneStep r acc pc = max acc n := by
              simp only [cloneStep, hr, if_pos, h]
              rcases le_or_lt n acc with h' | h'
              · rw [if_neg (by omega), max_eq_left h']
              · rw [if_pos h', max_eq_right (le_of_lt h')]
            have h2 : remoteOrdinals r (pc :: t) = n :: remoteOrdinals r t := by
              have hr' : pc.2.remoteName = r := by simpa using hr
              simp [remoteOrdinals, List.filterMap_cons, hr', h]
            rw [h1, h2, List.foldl_cons]
            exact ih (max acc n)
      · have h1 : cloneStep r acc pc = acc := by simp [cloneStep, hr]
        have h2 : remoteOrdinals r (pc :: t) = remoteOrdinals r t := by
          have hr' : ¬ pc.2.remoteName = r := by simpa using hr
          simp [remoteOrdinals, List.filterMap_cons, hr']
        rw [h1, h2]
        exact ih acc

/-- C5: `GetNextCloneNumber(remote)` equals the spec's
`max(existing ordinals) + 1` (with floor 0, non-numeric final segments
ignored), and is strictly greater than every ordinal parsed from the
final path segment of the remote's registered clones — so it never
returns a value ≤ an existing ordinal and never fills gaps. -/
theorem next_clone_number_spec (c : Config) (r : String) :
    c.getNextCloneNumber r = specNextCloneOrdinal c r ∧
    (∀ p cl n, (p, cl) ∈ c.clones → cl.remoteName = r →
      sscanfD (goBase cl.path).data = some n → n < c.getNextCloneNumber r) := by
  constructor
  · unfold Config.getNextCloneNumber specNextCloneOrdinal
    rw [foldl_cloneStep_eq]
  · intro p cl n hmem hr hp
    have hge := foldl_cloneStep_ge r c.clones 0 (p, cl) n hmem hr hp
    unfold Config.getNextCloneNumber
    omega

/-- The C5 witness pool for remote `r`: clones with ordinals 1 and 3, a
non-numeric path, and a clone of another remote with ordinal 9. -/
def cfgC5 : Config :=
  { workspaces := [],
    remotes := [("r", { name := "r", url := "git@h:r.git", cloneBaseDir := "/c" })],
    clones :=
      [("/c/1", { path := "/c/1", remoteName := "r", createdAt := 0, inUseBy := "",
                  currentBranch := "main" }),
       ("/c/3", { path := "/c/3", remoteName := "r", createdAt := 0, inUseBy := "",
                  currentBranch := "main" }),
       ("/c/notes", { path := "/c/notes", remoteName := "r", createdAt := 0,
                      inUseBy := "", currentBranch := "main" }),
       ("/d/9", { path := "/d/9", remoteName := "other", createdAt := 0,
                  inUseBy := "", currentBranch := "main" })],
    settings := settingsEx }

/-- Witness for C5: with ordinals 1 and 3 present the next number is 4
(the gap 2 is not filled), and 3 is strictly below it. -/
theorem next_clone_number_spec_witness :
    cfgC5.getNextCloneNumber "r" = 4 ∧ (3 : Int) < cfgC5.getNextCloneNumber "r" :=
  ⟨by decide,
   (next_clone_number_spec cfgC5 "r").2 "/c/3"
     { path := "/c/3", remoteName := "r", createdAt := 0, inUseBy := "",
       currentBranch := "main" }
     3 (by decide) rfl (by decide)⟩

/-- The mutation `UpdateWorkspaceStatus` performs on the workspace. -/
def setStatus (status : String) (pid : Int) (now : Nat) (w : Workspace) : Workspace :=
  { w with status := status, lastActive := now, sessionPID := pid }

theorem aupdate_of_none {α : Type} (l : List (String × α)) (k : String) (f : α → α)
    (h : alookup l k = none) : aupdate l k f = l := by
  induction l with
  | nil => rfl
  | cons p t ih =>
    obtain ⟨k', v⟩ := p
    by_cases hk : k' = k
    · subst hk; simp [alookup] at h
    · simp only [alookup, hk, if_neg] at h
      simp [aupdate, hk, ih h]

theorem freeClone_eq (c : Config) (p : String) (cl : Clone)
    (h : alookup c.clones p = some cl) :
    c.freeClone p = .ok { c with clones := aupdate c.clones p (setHolder "") } := by
  simp [Config.freeClone, setHolder, h]
  rfl

theorem updateWorkspaceStatus_eq (c : Config) (name status : String) (pid : Int)
    (now : Nat) (ws : Workspace) (h : alookup c.workspaces name = some ws) :
    c.updateWorkspaceStatus name status pid now =
      .ok { c with workspaces := aupdate c.workspaces name (setStatus status pid now) } := by
  simp [Config.updateWorkspaceStatus, setStatus, h]
  rfl

/-- What a successful `stop` saves: status idle (pid 0) for the named
workspace, and — when the workspace references a clone — that clone freed. -/
theorem stopCmd_ok (cfg : Config) (sessions : List String) (name : String)
    (now : Nat) (ws : Workspace) (h : alookup cfg.workspaces name = some ws) :
    ∃ s2, stopCmd cfg sessions name now =
      .ok ({ cfg with
              workspaces := aupdate cfg.workspaces name (setStatus StatusIdle 0 now),
              clones := if ws.clonePath = "" then cfg.clones
                        else aupdate cfg.clones ws.clonePath (setHolder "") }, s2) := by
  refine ⟨if sessions.contains (sessionNameFor name) then
            sessions.erase (sessionNameFor name) else sessions, ?_⟩
  unfold stopCmd
  simp only [Config.getWorkspace, h]
  by_cases hcp : ws.clonePath = ""
  · have hb : (ws.clonePath != "") = false := by simp [hcp]
    simp only [hb, Bool.false_eq_true, if_false]
    rw [updateWorkspaceStatus_eq cfg name StatusIdle 0 now ws h]
    simp [hcp]
  · have hb : (ws.clonePath != "") = true := by simp [hcp]
    simp only [hb, if_true]
    cases hcl : alookup cfg.clones ws.clonePath with
    | none =>
        simp only [hcl]
        rw [updateWorkspaceStatus_eq cfg name StatusIdle 0 now ws h]
        simp [hcp, aupdate_of_none _ _ _ hcl]
    | some cl =>
        simp only [hcl]
        rw [freeClone_eq cfg ws.clonePath cl hcl]
        have h2 : alookup
            ({ cfg with clones := aupdate cfg.clones ws.clonePath (setHolder "") } :
              Config).workspaces name = some ws := h
        simp [updateWorkspaceStatus_eq _ name StatusIdle 0 now ws h2, hcp]

/-- What C10 requires of a saved config after `stop`: the workspace's
status is idle and its registered clone (if it references one) is free. -/
def stopPost (c : Config) (name : String) : Prop :=
  ∀ ws', alookup c.workspaces name = some ws' →
    ws'.status = StatusIdle ∧
    (ws'.clonePath ≠ "" →
      ∀ cl, alookup c.clones ws'.clonePath = some cl → cl.inUseBy = "")

/-- The config produced by `stopCmd_ok` satisfies `stopPost`. -/
theorem stopPost_of (cfg : Config) (name : String) (ws : Workspace) (now : Nat)
    (h : alookup cfg.workspaces name = some ws) :
    stopPost
      { cfg with
        workspaces := aupdate cfg.workspaces name (setStatus StatusIdle 0 now),
        clones := if ws.clonePath = "" then cfg.clones
                  else aupdate cfg.clones ws.clonePath (setHolder "") } name := by
  intro ws' hws'
  have hlk : alookup (aupdate cfg.workspaces name (setStatus StatusIdle 0 now)) name
      = some (setStatus StatusIdle 0 now ws) := by
    rw [alookup_aupdate]; simp [h]
  have hws2 : (some (setStatus StatusIdle 0 now ws) : Option Workspace) = some ws' :=
    hlk.symm.trans hws'
  obtain rfl : setStatus StatusIdle 0 now ws = ws' := Option.some.inj hws2
  refine ⟨rfl, ?_⟩
  intro hcp cl hcl
  have hcp' : ws.clonePath ≠ "" := hcp
  have hc : alookup (if ws.clonePath = "" then cfg.clones
      else aupdate cfg.clones ws.clonePath (setHolder "")) ws.clonePath = some cl := hcl
  rw [if_neg hcp', alookup_aupdate, if_pos rfl] at hc
  cases hx : alookup cfg.clones ws.clonePath with
  | none => rw [hx] at hc; simp at hc
  | some cl0 =>
      rw [hx] at hc
      have h2 : some (setHolder "" cl0) = some cl := hc
      rw [← Option.some.inj h2]
      rfl

/-- C10: for every existing workspace, `stop` succeeds, and running it a
second time on the saved state succeeds again (the session kill is skipped
since the name was erased from the live-session list, and freeing an
already-free clone succeeds); after each of the two runs the workspace's
status is idle and its registered clone, if any, has empty `in_use_by`. -/
theorem stop_idempotent (cfg : Config) (sessions : List String) (name : String)
    (ws : Workspace) (now1 now2 : Nat)
    (h : alookup cfg.workspaces name = some ws) :
    ∃ c1 s1 c2 s2,
      stopCmd cfg sessions name now1 = .ok (c1, s1) ∧
      stopCmd c1 s1 name now2 = .ok (c2, s2) ∧
      stopPost c1 name ∧ stopPost c2 name := by
  obtain ⟨s1, heq1⟩ := stopCmd_ok cfg sessions name now1 ws h
  have hl1 : alookup (aupdate cfg.workspaces name (setStatus StatusIdle 0 now1)) name
      = some (setStatus StatusIdle 0 now1 ws) := by
    rw [alookup_aupdate]; simp [h]
  obtain ⟨s2, heq2⟩ :=
    stopCmd_ok
      { cfg with
        workspaces := aupdate cfg.workspaces name (setStatus StatusIdle 0 now1),
        clones := if ws.clonePath = "" then cfg.clones
                  else aupdate cfg.clones ws.clonePath (setHolder "") }
      s1 name now2 (setStatus StatusIdle 0 now1 ws) hl1
  exact ⟨_, s1, _, s2, heq1, heq2, stopPost_of cfg name ws now1 h,
         stopPost_of
           { cfg with
             workspaces := aupdate cfg.workspaces name (setStatus StatusIdle 0 now1),
             clones := if ws.clonePath = "" then cfg.clones
                       else aupdate cfg.clones ws.clonePath (setHolder "") }
           name (setStatus StatusIdle 0 now1 ws) now2 hl1⟩

/-- The C10 witness state: workspace `A` is active on clone `/c/1` with a
live tmux session. -/
def cfgC10 : Config :=
  { workspaces :=
      [("A", { name := "A", repoPath := "/c/1", clonePath := "/c/1", createdAt := 0,
               lastActive := 0, status := StatusActive, sessionPID := 7 })],
    remotes := [("r", { name := "r", url := "git@h:r.git", cloneBaseDir := "/c" })],
    clones :=
      [("/c/1", { path := "/c/1", remoteName := "r", createdAt := 0, inUseBy := "A",
                  currentBranch := "main" })],
    settings := settingsEx }

/-- Witness for C10 on the concrete state `cfgC10`. -/
theorem stop_idempotent_witness :
    ∃ c1 s1 c2 s2,
      stopCmd cfgC10 [sessionNameFor "A"] "A" 1 = .ok (c1, s1) ∧
      stopCmd c1 s1 "A" 2 = .ok (c2, s2) ∧
      stopPost c1 "A" ∧ stopPost c2 "A" :=
  stop_idempotent cfgC10 [sessionNameFor "A"] "A"
    { name := "A", repoPath := "/c/1", clonePath := "/c/1", createdAt := 0,
      lastActive := 0, status := StatusActive, sessionPID := 7 }
    1 2 (by decide)

/-- What a successful `archive` of a non-active workspace saves: status
archived, and the referenced clone (if any, and registered) freed. -/
theorem archiveCmd_ok (cfg : Config) (name : String) (ws : Workspace) (now : Nat)
    (h : alookup cfg.workspaces name = some ws) (hst : ws.status ≠ StatusActive) :
    archiveCmd cfg name (.ok ()) now =
      .ok { cfg with
            workspaces := aupdate cfg.workspaces name (setStatus StatusArchived 0 now),
            clones := if ws.clonePath = "" then cfg.clones
                      else aupdate cfg.clones ws.clonePath (setHolder "") } := by
  unfold archiveCmd
  simp only [Config.getWorkspace, h]
  have hb : (ws.status == StatusActive) = false := by simp [hst]
  simp only [hb, Bool.false_eq_true, if_false]
  by_cases hcp : ws.clonePath = ""
  · have hb2 : (ws.clonePath != "") = false := by simp [hcp]
    simp only [hb2, Bool.false_eq_true, if_false]
    rw [updateWorkspaceStatus_eq cfg name StatusArchived 0 now ws h]
    simp [hcp]
  · have hb2 : (ws.clonePath != "") = true := by simp [hcp]
    simp only [hb2, if_true]
    cases hcl : alookup cfg.clones ws.clonePath with
    | none =>
        have hfe : cfg.freeClone ws.clonePath = .error (.cloneNotFound ws.clonePath) := by
          simp [Config.freeClone, hcl]
        simp only [hfe]
        rw [updateWorkspaceStatus_eq cfg name StatusArchived 0 now ws h]
        simp [hcp, aupdate_of_none _ _ _ hcl]
    | some cl =>
        rw [freeClone_eq cfg ws.clonePath cl hcl]
        have h2 : alookup
            ({ cfg with clones := aupdate cfg.clones ws.clonePath (setHolder "") } :
              Config).workspaces name = some ws := h
        simp [updateWorkspaceStatus_eq _ name StatusArchived 0 now ws h2, hcp]

/-- C9: archiving an active workspace fails with the descriptive
cannot-archive-active error and the persisted config — the workspace
entry, its status and every clone assignment — is the untouched original;
archiving a non-active workspace succeeds, sets status archived and
clears `in_use_by` on its referenced clone. -/
theorem archive_active_refused (cfg : Config) (name : String) (ws : Workspace)
    (fs : Except String Unit) (now : Nat)
    (h : alookup cfg.workspaces name = some ws) :
    (ws.status = StatusActive →
      archiveCmd cfg name fs now = .error (.cannotArchiveActive name) ∧
      runPersisted cfg (archiveCmd cfg name fs now) = cfg) ∧
    (ws.status ≠ StatusActive →
      ∃ cfg', archiveCmd cfg name (.ok ()) now = .ok cfg' ∧
        (alookup cfg'.workspaces name).map Workspace.status = some StatusArchived ∧
        (ws.clonePath ≠ "" →
          (alookup cfg'.clones ws.clonePath).map Clone.inUseBy =
            (alookup cfg.clones ws.clonePath).map (fun _ => ""))) := by
  constructor
  · intro hact
    have heq : archiveCmd cfg name fs now = .error (.cannotArchiveActive name) := by
      unfold archiveCmd
      simp [Config.getWorkspace, h, hact]
    exact ⟨heq, by rw [heq]; rfl⟩
  · intro hst
    refine ⟨_, archiveCmd_ok cfg name ws now h hst, ?_, ?_⟩
    · have hlk : alookup (aupdate cfg.workspaces name (setStatus StatusArchived 0 now))
          name = some (setStatus StatusArchived 0 now ws) := by
        rw [alookup_aupdate]; simp [h]
      rw [hlk]
      rfl
    · intro hcp
      have hlk : alookup (if ws.clonePath = "" then cfg.clones
          else aupdate cfg.clones ws.clonePath (setHolder "")) ws.clonePath =
          (alookup cfg.clones ws.clonePath).map (setHolder "") := by
        rw [if_neg hcp, alookup_aupdate, if_pos rfl]
      rw [hlk]
      cases hx : alookup cfg.clones ws.clonePath <;> rfl

/-- The C9 witness state: `A` is active on `/c/1`, `B` is idle on `/c/2`. -/
def cfgC9 : Config :=
  { workspaces :=
      [("A", { name := "A", repoPath := "/c/1", clonePath := "/c/1", createdAt := 0,
               lastActive := 0, status := StatusActive, sessionPID := 7 }),
       ("B", { name := "B", repoPath := "/c/2", clonePath := "/c/2", createdAt := 0,
               lastActive := 0, status := StatusIdle, sessionPID := 0 })],
    remotes := [("r", { name := "r", url := "git@h:r.git", cloneBaseDir := "/c" })],
    clones :=
      [("/c/1", { path := "/c/1", remoteName := "r", createdAt := 0, inUseBy := "A",
                  currentBranch := "main" }),
       ("/c/2", { path := "/c/2", remoteName := "r", createdAt := 0, inUseBy := "B",
                  currentBranch := "main" })],
    settings := settingsEx }

/-- Witness for C9: archiving active `A` is refused leaving the persisted
config untouched; archiving idle `B` succeeds, archives it and frees its
clone. -/
theorem archive_active_refused_witness :
    (archiveCmd cfgC9 "A" (.ok ()) 5 = .error (.cannotArchiveActive "A") ∧
     runPersisted cfgC9 (archiveCmd cfgC9 "A" (.ok ()) 5) = cfgC9) ∧
    (∃ cfg', archiveCmd cfgC9 "B" (.ok ()) 5 = .ok cfg' ∧
      (alookup cfg'.workspaces "B").map Workspace.status = some StatusArchived ∧
      ((({ name := "B", repoPath := "/c/2", clonePath := "/c/2", createdAt := 0,
           lastActive := 0, status := StatusIdle,
           sessionPID := 0 } : Workspace).clonePath ≠ "") →
        (alookup cfg'.clones "/c/2").map Clone.inUseBy =
          (alookup cfgC9.clones "/c/2").map (fun _ => ""))) :=
  ⟨(archive_active_refused cfgC9 "A"
      { name := "A", repoPath := "/c/1", clonePath := "/c/1", createdAt := 0,
        lastActive := 0, status := StatusActive, sessionPID := 7 }
      (.ok ()) 5 (by decide)).1 rfl,
   (archive_active_refused cfgC9 "B"
      { name := "B", repoPath := "/c/2", clonePath := "/c/2", createdAt := 0,
        lastActive := 0, status := StatusIdle, sessionPID := 0 }
      (.ok ()) 5 (by decide)).2 (by decide)⟩

/-- The C1 state: `A` is active on the single clone `/c/1` of remote `r`. -/
def cfgC1 : Config :=
  { workspaces :=
      [("A", { name := "A", repoPath := "/c/1", clonePath := "/c/1", createdAt := 0,
               lastActive := 0, status := StatusActive, sessionPID := 7 })],
    remotes := [("r", { name := "r", url := "git@h:r.git", cloneBaseDir := "/c" })],
    clones :=
      [("/c/1", { path := "/c/1", remoteName := "r", createdAt := 0, inUseBy := "A",
                  currentBranch := "main" })],
    settings := settingsEx }

/-- The state after running `stop A` and then `create B --remote r` picking
the freed clone (the lifecycle sequence the claim quantifies over). -/
def cfgC1After : Config :=
  match stopCmd cfgC1 [sessionNameFor "A"] "A" 1 with
  | .ok (c1, _) => runPersisted c1 (createWithFreeClone c1 "B" "r" 2)
  | .error _ => cfgC1

/-- C1 counterexample: after `stop A; create B` (assignment of the freed
clone), the non-archived workspaces `A` (idle) and `B` (idle)
simultaneously report the same `clone_path` `/c/1` — `stop` freed the
clone but left `A`'s `clone_path` in place — refuting the claimed
invariant for the lifecycle commands.  Only `in_use_by` is single-owner:
it names `B` alone. -/
theorem clone_path_shared_after_stop_and_create :
    (alookup cfgC1After.workspaces "A").map Workspace.clonePath = some "/c/1" ∧
    (alookup cfgC1After.workspaces "B").map Workspace.clonePath = some "/c/1" ∧
    (alookup cfgC1After.workspaces "A").map Workspace.status = some StatusIdle ∧
    (alookup cfgC1After.workspaces "B").map Workspace.status = some StatusIdle ∧
    (alookup cfgC1After.clones "/c/1").map Clone.inUseBy = some "B" := by
  decide

/-- Workspace `wsName` holds clone `p` in `c`: it exists, is not archived,
reports `clone_path = p`, and `p`'s `in_use_by` names it back. -/
def holdsClone (c : Config) (wsName clonePath : String) : Prop :=
  ∃ ws cl, alookup c.workspaces wsName = some ws ∧ ws.status ≠ StatusArchived ∧
    ws.clonePath = clonePath ∧ alookup c.clones clonePath = some cl ∧
    cl.inUseBy = wsName

/-- C1 amended: `in_use_by` is empty or names exactly one workspace — in
any config at most one non-archived workspace both reports `clone_path = p`
and is named by `p`'s `in_use_by` (so the property holds after every
sequence of lifecycle operations); the stale `clone_path` of a stopped or
taken-over workspace is what the counterexample exhibits. -/
theorem clone_holder_unique (c : Config) (n1 n2 p : String)
    (h1 : holdsClone c n1 p) (h2 : holdsClone c n2 p) : n1 = n2 := by
  obtain ⟨ws1, cl1, _, _, _, hc1, hu1⟩ := h1
  obtain ⟨ws2, cl2, _, _, _, hc2, hu2⟩ := h2
  rw [hc1] at hc2
  rw [← hu1, ← hu2, Option.some.inj hc2]

/-- A one-workspace, one-clone state where `A` holds `/x` (C1 witness). -/
def cfgHold : Config :=
  { workspaces :=
      [("A", { name := "A", repoPath := "/x", clonePath := "/x", createdAt := 0,
               lastActive := 0, status := StatusIdle, sessionPID := 0 })],
    remotes := [],
    clones := [("/x", { path := "/x", remoteName := "r", createdAt := 0,
                        inUseBy := "A", currentBranch := "" })],
    settings := settingsEx }

/-- Witness for the C1 amended theorem at a concrete holder. -/
theorem clone_holder_unique_witness :
    holdsClone cfgHold "A" "/x" ∧ "A" = "A" :=
  have hh : holdsClone cfgHold "A" "/x" :=
    ⟨{ name := "A", repoPath := "/x", clonePath := "/x", createdAt := 0,
       lastActive := 0, status := StatusIdle, sessionPID := 0 },
     { path := "/x", remoteName := "r", createdAt := 0, inUseBy := "A",
       currentBranch := "" },
     by decide, by decide, by decide, by decide, by decide⟩
  ⟨hh, clone_holder_unique cfgHold "A" "A" "/x" hh hh⟩
